import Mathlib

/-!
Verification development for the `lazy-mcp-dev` MCP server.

The repository ships two variants of one ticket-retrieval tool:

* `src/index.ts` — tool `get-linear-tickets`: a raw `fetch` call against the
  Linear GraphQL endpoint, with a hardcoded API key, an explicit HTTP-status
  check, an explicit `data.errors` check and a hand-parsed result container;
* `build/index.js` — tool `get-linear-tickets-v1`: a Linear-SDK–mediated call
  with the key read from the process environment and lazily resolved
  state/assignee/project relations, plus a `start-task` prompt whose
  `branchType` argument is declared as `z.enum(["feature", "bugfix"])`.

Both handlers are shallowly embedded below as total Lean functions of the
search description and of the outcome of the remote call; the remote Linear
service itself (an external collaborator) is modelled from its query contract.
All strings are modelled as sequences of characters (`String` / `List Char`).
-/

namespace LazyMcp

/-! ## Data model -/

/-- One ticket as delivered by the remote service: the fields selected by the
GraphQL query of `src/index.ts` (lines 59–74) and by the SDK call of
`build/index.js` (lines 45–53, 61–63). Nested `state`/`assignee`/`project`
relations are each optional and carry a `name`; an absent relation, or an
absent `name`, is `none`. The `description` may be absent (`none`) or present
(possibly the empty string).  -/
structure Ticket where
  identifier : String
  title : String
  description : Option String
  stateName : Option String
  assigneeName : Option String
  projectName : Option String
  url : String
deriving DecidableEq

/-- One entry of a GraphQL `errors` array (the shape the handlers consume:
an object with a `message` field). -/
structure GqlError where
  message : String
deriving DecidableEq

/-- One content block of an MCP tool response; both handlers only ever emit
`type: "text"` blocks. -/
inductive ContentBlock where
  | text (s : String)
deriving DecidableEq

/-- The response envelope returned by a tool handler: `{ content: [...] }`. -/
structure ResponseEnvelope where
  content : List ContentBlock
deriving DecidableEq

/-- Envelope with a single text block, the only shape either handler builds. -/
def mkText (s : String) : ResponseEnvelope :=
  ⟨[ContentBlock.text s]⟩

/-! ## Shared formatting helpers (identical text in both handler variants) -/

/-- JavaScript `x?.name || dflt`: an absent relation (`undefined`), an absent
name, or an empty name are all falsy and fall back to the default. -/
def jsOr : Option String → String → String
  | none, d => d
  | some s, d => if s = "" then d else s

/-- JavaScript `s.substring(0, n)`: the first at-most-`n` characters. -/
def jsSubstring (s : String) (n : Nat) : String :=
  ⟨s.data.take n⟩

/-- Description rendering of `src/index.ts` line 125:
`ticket.description ? ticket.description.substring(0, 200) + '...' : 'No description'`.
The empty string is falsy in JavaScript, so it takes the `'No description'`
branch exactly like an absent description. Note the `'...'` marker is appended
to every truthy description, truncated or not. -/
def tsRenderDescr : Option String → String
  | none => "No description"
  | some s => if s = "" then "No description" else jsSubstring s 200 ++ "..."

/-- Description rendering of `build/index.js` line 70 (textually the same
expression as in `src/index.ts` line 125). -/
def buildRenderDescr : Option String → String
  | none => "No description"
  | some s => if s = "" then "No description" else jsSubstring s 200 ++ "..."

/-- One formatted ticket block, `src/index.ts` lines 118–126. -/
def tsRenderTicket (t : Ticket) : String :=
  "Ticket ID: " ++ t.identifier ++ "\n" ++
  "Title: " ++ t.title ++ "\n" ++
  "Status: " ++ jsOr t.stateName "N/A" ++ "\n" ++
  "Assignee: " ++ jsOr t.assigneeName "Unassigned" ++ "\n" ++
  "Project: " ++ jsOr t.projectName "N/A" ++ "\n" ++
  "URL: " ++ t.url ++ "\n" ++
  "Description: " ++ tsRenderDescr t.description

/-- One formatted ticket block, `build/index.js` lines 64–70 (same template,
with the three relations awaited first; the awaited values are the `Ticket`
fields here). -/
def buildRenderTicket (t : Ticket) : String :=
  "Ticket ID: " ++ t.identifier ++ "\n" ++
  "Title: " ++ t.title ++ "\n" ++
  "Status: " ++ jsOr t.stateName "N/A" ++ "\n" ++
  "Assignee: " ++ jsOr t.assigneeName "Unassigned" ++ "\n" ++
  "Project: " ++ jsOr t.projectName "N/A" ++ "\n" ++
  "URL: " ++ t.url ++ "\n" ++
  "Description: " ++ buildRenderDescr t.description

/-- The literal block separator `"\n\n---\n\n"` used by both `join` calls
(`src/index.ts` line 126, `build/index.js` line 72). -/
def sep : String := "\n\n---\n\n"

/-- The zero-match text, `src/index.ts` line 114 and `build/index.js` line 56. -/
def noTicketsText (d : String) : String :=
  "No Linear tickets found for: \"" ++ d ++ "\""

/-! ## JSON serialization of a GraphQL error array

`src/index.ts` line 108 renders a service error array with
`JSON.stringify(data.errors)`. For arrays of `{ message: string }` objects
this produces `[\x7b"message":"..."\x7d,...]` with JSON string escaping. -/

/-- Lowercase hexadecimal digit, as produced by `JSON.stringify` in `\u00XX`
escapes. -/
def hexDigit (n : Nat) : Char :=
  if n < 10 then Char.ofNat (48 + n) else Char.ofNat (87 + n)

/-- JSON escaping of one character, as `JSON.stringify` performs on strings. -/
def jsonEscapeChar (c : Char) : String :=
  if c = '"' then "\\\""
  else if c = '\\' then "\\\\"
  else if c = '\x08' then "\\b"
  else if c = '\x09' then "\\t"
  else if c = '\x0a' then "\\n"
  else if c = '\x0c' then "\\f"
  else if c = '\x0d' then "\\r"
  else if c.toNat < 32 then
    "\\u00" ++ String.mk [hexDigit (c.toNat / 16), hexDigit (c.toNat % 16)]
  else String.mk [c]

/-- JSON escaping of a whole string. -/
def jsonEscape (s : String) : String :=
  String.join (s.data.map jsonEscapeChar)

/-- `JSON.stringify` of one `{ message: ... }` error object. -/
def stringifyGqlError (e : GqlError) : String :=
  "\x7b\"message\":\"" ++ jsonEscape e.message ++ "\"\x7d"

/-- `JSON.stringify` of the whole `data.errors` array. -/
def stringifyGqlErrors (es : List GqlError) : String :=
  "[" ++ String.intercalate "," (es.map stringifyGqlError) ++ "]"

/-! ## The raw-query handler (`src/index.ts`, tool `get-linear-tickets`) -/

/-- The hardcoded credential of `src/index.ts` line 52. It is a non-empty
string literal, so the falsy guard on line 53 can never fire. -/
def LINEAR_API_KEY : String := "lin_api_xEVXTPuDQcdTR2TJSO9MEABvTYHexuwpw6QCb4n9"

/-- Every way the remote interaction of `src/index.ts` lines 87–117 can go,
as observed by the handler:
* `reject`: the `fetch` (or a body read) rejects — lands in the `catch` with
  the rejection's `message`;
* `httpError`: `response.ok` is false (line 96), with status, status text and
  body text;
* `serviceErrors`: the parsed JSON has a (truthy) `errors` array (line 105);
* `malformed`: the parsed JSON lacks the expected `data.data.issues`
  container, so line 112 throws a `TypeError` whose `message` lands in the
  `catch`;
* `ok`: the expected container is present; `nodes` is the possibly-absent
  array of tickets (line 112 treats an absent array like an empty one). -/
inductive FetchOutcome where
  | reject (message : String)
  | httpError (status : Nat) (statusText : String) (body : String)
  | serviceErrors (errs : List GqlError)
  | malformed (message : String)
  | ok (nodes : Option (List Ticket))
deriving DecidableEq

/-- The `get-linear-tickets` handler of `src/index.ts` lines 51–141, with the
credential as a parameter (the source fixes it to `LINEAR_API_KEY`, see
`tsHandler`). The guard `if (!LINEAR_API_KEY)` (line 53) is the emptiness test
on the credential string. -/
def tsHandlerWith (key : String) (description : String) (o : FetchOutcome) :
    ResponseEnvelope :=
  if key = "" then
    mkText "LINEAR_API_KEY environment variable is not set."
  else
    match o with
    | .reject msg => mkText ("Failed to fetch issues from Linear: " ++ msg)
    | .httpError status statusText body =>
        mkText ("Error fetching from Linear API: " ++ toString status ++ " "
          ++ statusText ++ " - " ++ body)
    | .serviceErrors errs =>
        mkText ("Linear API GraphQL Error: " ++ stringifyGqlErrors errs)
    | .malformed msg => mkText ("Failed to fetch issues from Linear: " ++ msg)
    | .ok nodes =>
        match nodes with
        | none => mkText (noTicketsText description)
        | some ts =>
            if ts.length = 0 then mkText (noTicketsText description)
            else
              mkText ("Found " ++ toString ts.length ++ " ticket(s) for \""
                ++ description ++ "\":\n\n"
                ++ String.intercalate sep (ts.map tsRenderTicket))

/-- The `get-linear-tickets` handler exactly as shipped: the credential is the
hardcoded literal of line 52. -/
def tsHandler : String → FetchOutcome → ResponseEnvelope :=
  tsHandlerWith LINEAR_API_KEY

/-- Control-flow fact of `src/index.ts` lines 53–87: the `fetch` call is
reached exactly when the credential guard does not fire, i.e. when the key is
truthy (non-empty). -/
def tsReachesFetch (key : String) : Bool :=
  !(key == "")

/-! ## The SDK handler (`build/index.js`, tool `get-linear-tickets-v1`) -/

/-- Every way the SDK interaction of `build/index.js` lines 45–72 can go:
* `thrown`: the SDK call (or a relation resolution) throws; the error carries
  a `message` and possibly an `errors` array of `{ message }` objects
  (line 84 checks `error.errors && Array.isArray(error.errors)`);
* `ok`: the call returns; `nodes` is the possibly-absent array of tickets
  (line 54 treats an absent array like an empty one). -/
inductive SdkOutcome where
  | thrown (message : String) (errorsArr : Option (List GqlError))
  | ok (nodes : Option (List Ticket))
deriving DecidableEq

/-- The `get-linear-tickets-v1` handler of `build/index.js` lines 39–91.
`envKey` is `process.env.LINEAR_API_KEY` (line 40); note the handler never
branches on it — there is no missing-credential check in this variant. -/
def buildHandler (_envKey : Option String) (description : String)
    (o : SdkOutcome) : ResponseEnvelope :=
  match o with
  | .thrown msg errorsArr =>
      mkText ("Failed to fetch issues from Linear: "
        ++ (match errorsArr with
            | some errs =>
                String.intercalate ", " (errs.map GqlError.message)
            | none => msg))
  | .ok nodes =>
      match nodes with
      | none => mkText (noTicketsText description)
      | some ts =>
          if ts.length = 0 then mkText (noTicketsText description)
          else
            mkText ("Found " ++ toString ts.length ++ " ticket(s) for \""
              ++ description ++ "\":\n\n"
              ++ String.intercalate sep (ts.map buildRenderTicket))

/-- Control-flow fact of `build/index.js` lines 40–45: the SDK call is reached
unconditionally — there is no credential guard, whatever
`process.env.LINEAR_API_KEY` holds (including absent). -/
def buildReachesFetch (_envKey : Option String) : Bool :=
  true

/-! ## The remote service, modelled from its query contract

Both handlers send the same filter: issues whose title or description contains
the search string case-insensitively, limited to the first 5 matches
(`src/index.ts` lines 75–83, `build/index.js` lines 45–53). The service
itself is an external collaborator (spec §6), not part of `src/`. -/

/-- Character-wise lowercasing (the case-folding of `containsIgnoreCase`). -/
def lowerData (s : String) : String :=
  ⟨s.data.map Char.toLower⟩

/-- Decides whether `pat` occurs at the start of `s`. -/
def leadsWith : List Char → List Char → Bool
  | [], _ => true
  | _ :: _, [] => false
  | p :: ps, c :: cs => p == c && leadsWith ps cs

/-- Decides whether `pat` occurs contiguously anywhere inside `s`. -/
def occursIn : List Char → List Char → Bool
  | p, [] => leadsWith p []
  | p, c :: cs => leadsWith p (c :: cs) || occursIn p cs

/-- Case-insensitive substring test, the semantics of the service's
`containsIgnoreCase` filter operator. -/
def containsIgnoreCase (hay pat : String) : Bool :=
  occursIn (lowerData pat).data (lowerData hay).data

/-- Modelled from the spec (§4.3, §6): a stored issue matches the filter when
the description occurs case-insensitively in its title or in its body. -/
def ticketMatches (d : String) (t : Ticket) : Bool :=
  containsIgnoreCase t.title d ||
    (match t.description with
     | some body => containsIgnoreCase body d
     | none => false)

/-- Modelled from the spec (§6 remote service contract): the service answers
the filter built by the handlers with the first 5 matching issues, in its own
storage order. -/
def serviceQuery (dataset : List Ticket) (d : String) : List Ticket :=
  (dataset.filter (ticketMatches d)).take 5

/-! ## The `start-task` prompt (`build/index.js` lines 93–111) -/

/-- One prompt message (`role`/text content pair). -/
structure PromptMessage where
  role : String
  text : String
deriving DecidableEq

/-- Protocol-level dispatch failures (spec §7 taxonomy). -/
inductive DispatchError where
  | invalidArguments (fields : List String)
deriving DecidableEq

/-- The two literals of `z.enum(["feature", "bugfix"])`, `build/index.js`
line 95. -/
def branchTypeOptions : List String := ["feature", "bugfix"]

/-- The instructional message template of `build/index.js` lines 97–104. -/
def startTaskMessage (taskDescription : String) : String :=
  "Start this task.\n    Task Description: " ++ taskDescription ++
  "\n    STRICT Steps to follow:" ++
  "\n    1. Fetch the linear tickets for the task, use the tool \"get-linear-tickets-v1\" to fetch the tickets." ++
  "\n    2. Let the user pick the ticket, explcityly ask they want to work on." ++
  "\n    3. IMPORTANT: Create a new branch for the task." ++
  "\n    4. Start the task.\n    "

/-- The `start-task` prompt handler body, `build/index.js` lines 96–110 (the
`branchType` argument is validated by the schema but unused in the message). -/
def startTaskHandler (taskDescription : String) (_branchType : String) :
    List PromptMessage :=
  [⟨"user", startTaskMessage taskDescription⟩]

/-- Modelled from the spec (§4.2): the Dispatcher (SDK code, not in `src/`)
validates arguments against the declared schema before invoking the handler
and fails with `InvalidArgumentsError` naming the offending field; for
`start-task` the schema restricts `branchType` to
`z.enum(["feature", "bugfix"])` (`build/index.js` line 95). -/
def dispatchStartTask (taskDescription branchType : String) :
    Except DispatchError (List PromptMessage) :=
  if branchType ∈ branchTypeOptions then
    Except.ok (startTaskHandler taskDescription branchType)
  else
    Except.error (DispatchError.invalidArguments ["branchType"])

/-! ## Substring containment -/

/-- Containment of `pat` as a contiguous substring of `s`. -/
def StrContains (pat s : String) : Prop :=
  ∃ pre post : List Char, s.data = pre ++ pat.data ++ post

/-- The seven field labels of a formatted ticket block. -/
def fieldLabels : List String :=
  ["Ticket ID: ", "Title: ", "Status: ", "Assignee: ", "Project: ",
   "URL: ", "Description: "]

/-- A concrete ticket used to exercise the theorems on closed inputs. -/
def sampleTicket : Ticket :=
  { identifier := "ACA-97", title := "Fix signup x", description := none,
    stateName := none, assigneeName := none, projectName := none,
    url := "https://linear.app/issue/ACA-97" }

/-! ## Lemmas about `leadsWith` and `occursIn` -/

lemma leadsWith_nil (p : List Char) : leadsWith p [] = true ↔ p = [] := by
  cases p <;> simp [leadsWith]

lemma leadsWith_iff (p s : List Char) :
    leadsWith p s = true ↔ ∃ t, s = p ++ t := by
  induction p generalizing s with
  | nil => simp [leadsWith]
  | cons q ps ih =>
    cases s with
    | nil => simp [leadsWith]
    | cons c cs =>
      simp only [leadsWith, Bool.and_eq_true, beq_iff_eq, ih,
        List.cons_append, List.cons.injEq, exists_and_left]
      constructor
      · rintro ⟨rfl, h⟩; exact ⟨rfl, h⟩
      · rintro ⟨rfl, h⟩; exact ⟨rfl, h⟩

lemma leadsWith_self (p : List Char) : leadsWith p p = true :=
  (leadsWith_iff p p).mpr ⟨[], by simp⟩

lemma occursIn_of_leadsWith (p s : List Char) (h : leadsWith p s = true) :
    occursIn p s = true := by
  cases s with
  | nil => simpa [occursIn] using h
  | cons c cs => simp [occursIn, h]

lemma occursIn_iff (p s : List Char) :
    occursIn p s = true ↔ ∃ pre post, s = pre ++ (p ++ post) := by
  induction s with
  | nil =>
    rw [show occursIn p [] = leadsWith p [] from rfl, leadsWith_nil]
    constructor
    · rintro rfl; exact ⟨[], [], rfl⟩
    · rintro ⟨pre, post, h⟩
      have := congrArg List.length h
      simp at this
      have hp : p.length = 0 := by omega
      exact List.length_eq_zero.mp hp
  | cons c cs ih =>
    simp only [occursIn, Bool.or_eq_true]
    constructor
    · rintro (h | h)
      · rcases (leadsWith_iff _ _).mp h with ⟨t, ht⟩
        exact ⟨[], t, by simpa using ht⟩
      · rcases ih.mp h with ⟨pre, post, hpp⟩
        exact ⟨c :: pre, post, by simp [hpp]⟩
    · rintro ⟨pre, post, hpp⟩
      cases pre with
      | nil =>
        exact Or.inl ((leadsWith_iff _ _).mpr ⟨post, by simpa using hpp⟩)
      | cons a pre' =>
        simp only [List.cons_append] at hpp
        injection hpp with h1 h2
        exact Or.inr (ih.mpr ⟨pre', post, h2⟩)

lemma occursIn_eq_false_of_disjoint (p s : List Char) (hp : p ≠ [])
    (h : ∀ c ∈ p, c ∉ s) : occursIn p s = false := by
  induction s with
  | nil =>
    cases p with
    | nil => exact absurd rfl hp
    | cons q ps => rfl
  | cons c cs ih =>
    have h2 : occursIn p cs = false :=
      ih (fun x hx hmem => h x hx (List.mem_cons_of_mem c hmem))
    have h1 : leadsWith p (c :: cs) = false := by
      cases p with
      | nil => exact absurd rfl hp
      | cons q ps =>
        have hq : (q == c) = false := by
          apply beq_eq_false_iff_ne.mpr
          intro hqc
          exact h q (List.mem_cons_self q ps) (hqc ▸ List.mem_cons_self c cs)
        simp [leadsWith, hq]
    simp [occursIn, h1, h2]

lemma leadsWith_append_cases (p u v : List Char)
    (h : leadsWith p (u ++ v) = true) :
    leadsWith p u = true ∨ ∃ p2, p = u ++ p2 ∧ leadsWith p2 v = true := by
  induction u generalizing p with
  | nil => exact Or.inr ⟨p, rfl, h⟩
  | cons c u' ih =>
    cases p with
    | nil => exact Or.inl rfl
    | cons q ps =>
      simp only [List.cons_append, leadsWith, Bool.and_eq_true] at h
      rcases h with ⟨hqc, h'⟩
      rcases ih ps h' with h1 | ⟨p2, hp2, h2⟩
      · exact Or.inl (by simp [leadsWith, hqc, h1])
      · refine Or.inr ⟨p2, ?_, h2⟩
        have hq : q = c := beq_iff_eq.mp hqc
        subst hq
        rw [hp2]
        rfl

lemma occursIn_append_right_disjoint (p d f2 : List Char) (hp : p ≠ [])
    (h2 : ∀ c ∈ p, c ∉ f2) (hd : occursIn p d = false) :
    occursIn p (d ++ f2) = false := by
  induction d with
  | nil => simpa using occursIn_eq_false_of_disjoint p f2 hp h2
  | cons x d' ihd =>
    have hx : occursIn p d' = false := by
      simp only [occursIn, Bool.or_eq_false_iff] at hd
      exact hd.2
    have htail := ihd hx
    have hlead : leadsWith p (x :: (d' ++ f2)) = false := by
      cases hcase : leadsWith p (x :: (d' ++ f2)) with
      | false => rfl
      | true =>
      exfalso
      have hl : leadsWith p ((x :: d') ++ f2) = true := by
        simpa [List.cons_append] using hcase
      rcases leadsWith_append_cases p (x :: d') f2 hl with h1 | ⟨p2, hp2, hlp2⟩
      · have := occursIn_of_leadsWith _ _ h1
        rw [hd] at this
        exact Bool.noConfusion this
      · cases p2 with
        | nil =>
          rw [List.append_nil] at hp2
          subst hp2
          have := occursIn_of_leadsWith _ _ (leadsWith_self (x :: d'))
          rw [hd] at this
          exact Bool.noConfusion this
        | cons e rest =>
          rcases (leadsWith_iff _ _).mp hlp2 with ⟨t, ht⟩
          have hef2 : e ∈ f2 := by
            rw [ht]; exact List.mem_append_left _ (List.mem_cons_self e rest)
          have hep : e ∈ p := by
            rw [hp2]
            exact List.mem_append_right _ (List.mem_cons_self e rest)
          exact h2 e hep hef2
    show occursIn p (x :: (d' ++ f2)) = false
    simp [occursIn, hlead, htail]

lemma occursIn_sandwich (p f1 d f2 : List Char) (hp : p ≠ [])
    (h1 : ∀ c ∈ p, c ∉ f1) (h2 : ∀ c ∈ p, c ∉ f2)
    (hd : occursIn p d = false) :
    occursIn p (f1 ++ (d ++ f2)) = false := by
  induction f1 with
  | nil => simpa using occursIn_append_right_disjoint p d f2 hp h2 hd
  | cons c f1' ihf =>
    have hsub : ∀ x ∈ p, x ∉ f1' :=
      fun x hx hmem => h1 x hx (List.mem_cons_of_mem c hmem)
    have htail := ihf hsub
    have hlead : leadsWith p (c :: (f1' ++ (d ++ f2))) = false := by
      cases p with
      | nil => exact absurd rfl hp
      | cons q ps =>
        have hq : (q == c) = false := by
          apply beq_eq_false_iff_ne.mpr
          intro hqc
          exact h1 q (List.mem_cons_self q ps) (hqc ▸ List.mem_cons_self c f1')
        simp [leadsWith, hq]
    show occursIn p (c :: (f1' ++ (d ++ f2))) = false
    simp [occursIn, hlead, htail]

/-! ## Lemmas about `StrContains` -/

lemma strContains_iff_occursIn (pat s : String) :
    StrContains pat s ↔ occursIn pat.data s.data = true := by
  rw [occursIn_iff]
  constructor
  · rintro ⟨pre, post, h⟩
    exact ⟨pre, post, by rw [h, List.append_assoc]⟩
  · rintro ⟨pre, post, h⟩
    exact ⟨pre, post, by rw [h, List.append_assoc]⟩

lemma strContains_head (p rest : String) : StrContains p (p ++ rest) :=
  ⟨[], rest.data, by simp [String.data_append]⟩

lemma strContains_end (a p : String) : StrContains p (a ++ p) :=
  ⟨a.data, [], by simp [String.data_append]⟩

lemma strContains_self (p : String) : StrContains p p :=
  ⟨[], [], by simp⟩

lemma strContains_tail (a p s : String) (h : StrContains p s) :
    StrContains p (a ++ s) := by
  rcases h with ⟨pre, post, hh⟩
  exact ⟨a.data ++ pre, post,
    by simp [String.data_append, hh, List.append_assoc]⟩

lemma strContains_merge3 (a b c rest : String) :
    StrContains (a ++ b ++ c) (a ++ (b ++ (c ++ rest))) := by
  have h : a ++ (b ++ (c ++ rest)) = (a ++ b ++ c) ++ rest := by
    simp [String.append_assoc]
  rw [h]
  exact strContains_head _ _

/-- Containment of the separator in the zero-match text can only come from the
echoed description: the surrounding fixed text shares no character with the
separator. -/
lemma noTickets_sep_free (d : String) (hd : ¬ StrContains sep d) :
    ¬ StrContains sep (noTicketsText d) := by
  rw [strContains_iff_occursIn] at hd ⊢
  have hdf : occursIn sep.data d.data = false := by
    cases hcase : occursIn sep.data d.data
    · rfl
    · exact absurd hcase hd
  have hsand := occursIn_sandwich sep.data
    ("No Linear tickets found for: \"").data d.data ("\"").data
    (by decide) (by decide) (by decide) hdf
  have hrw : (noTicketsText d).data =
      ("No Linear tickets found for: \"").data ++ (d.data ++ ("\"").data) := by
    simp [noTicketsText, String.data_append]
  rw [hrw, hsand]
  simp

/-! ## Envelope and head-character helpers -/

lemma mkText_inj {s t : String} (h : mkText s = mkText t) : s = t := by
  simpa [mkText] using h

lemma mkText_ne {s t : String} (h : s ≠ t) : mkText s ≠ mkText t :=
  fun he => h (mkText_inj he)

lemma stringNe_of_head (s t : String) (h : s.data.head? ≠ t.data.head?) :
    s ≠ t :=
  fun he => h (by rw [he])

lemma head_append (f rest : String) (c : Char) (h : f.data.head? = some c) :
    (f ++ rest).data.head? = some c := by
  rw [String.data_append]
  cases hf : f.data with
  | nil => simp [hf] at h
  | cons a l =>
    rw [hf] at h
    simp at h
    simp [h]

lemma ne_text_of_heads {s t : String} (c c' : Char)
    (hc : s.data.head? = some c) (hc' : t.data.head? = some c')
    (hne : c ≠ c') : mkText s ≠ mkText t :=
  mkText_ne (stringNe_of_head _ _ (by rw [hc, hc']; simp [hne]))

/-! ## Structure of a rendered ticket block -/

lemma tsRenderTicket_eq (t : Ticket) :
    tsRenderTicket t =
      "Ticket ID: " ++ (t.identifier ++ ("\n" ++ ("Title: " ++ (t.title ++
      ("\n" ++ ("Status: " ++ (jsOr t.stateName "N/A" ++ ("\n" ++
      ("Assignee: " ++ (jsOr t.assigneeName "Unassigned" ++ ("\n" ++
      ("Project: " ++ (jsOr t.projectName "N/A" ++ ("\n" ++ ("URL: " ++
      (t.url ++ ("\n" ++ ("Description: " ++
      tsRenderDescr t.description)))))))))))))))))) := by
  simp only [tsRenderTicket, String.append_assoc]

lemma buildRenderTicket_eq (t : Ticket) :
    buildRenderTicket t =
      "Ticket ID: " ++ (t.identifier ++ ("\n" ++ ("Title: " ++ (t.title ++
      ("\n" ++ ("Status: " ++ (jsOr t.stateName "N/A" ++ ("\n" ++
      ("Assignee: " ++ (jsOr t.assigneeName "Unassigned" ++ ("\n" ++
      ("Project: " ++ (jsOr t.projectName "N/A" ++ ("\n" ++ ("URL: " ++
      (t.url ++ ("\n" ++ ("Description: " ++
      buildRenderDescr t.description)))))))))))))))))) := by
  simp only [buildRenderTicket, String.append_assoc]

lemma tsRenderTicket_labels (t : Ticket) :
    ∀ lab ∈ fieldLabels, StrContains lab (tsRenderTicket t) := by
  intro lab hlab
  rw [tsRenderTicket_eq]
  simp only [fieldLabels, List.mem_cons, List.not_mem_nil, or_false] at hlab
  rcases hlab with rfl | rfl | rfl | rfl | rfl | rfl | rfl <;>
    repeat first
      | exact strContains_head _ _
      | apply strContains_tail

lemma tsRenderTicket_status_na (t : Ticket)
    (h : jsOr t.stateName "N/A" = "N/A") :
    StrContains "Status: N/A\n" (tsRenderTicket t) := by
  rw [tsRenderTicket_eq, h,
    (by decide : ("Status: N/A\n" : String) = "Status: " ++ "N/A" ++ "\n")]
  repeat first
    | exact strContains_merge3 _ _ _ _
    | apply strContains_tail

lemma tsRenderTicket_assignee_unassigned (t : Ticket)
    (h : jsOr t.assigneeName "Unassigned" = "Unassigned") :
    StrContains "Assignee: Unassigned\n" (tsRenderTicket t) := by
  rw [tsRenderTicket_eq, h,
    (by decide : ("Assignee: Unassigned\n" : String)
      = "Assignee: " ++ "Unassigned" ++ "\n")]
  repeat first
    | exact strContains_merge3 _ _ _ _
    | apply strContains_tail

lemma tsRenderTicket_project_na (t : Ticket)
    (h : jsOr t.projectName "N/A" = "N/A") :
    StrContains "Project: N/A\n" (tsRenderTicket t) := by
  rw [tsRenderTicket_eq, h,
    (by decide : ("Project: N/A\n" : String) = "Project: " ++ "N/A" ++ "\n")]
  repeat first
    | exact strContains_merge3 _ _ _ _
    | apply strContains_tail

lemma jsOr_eq_default (o : Option String) (dflt : String)
    (h : o = none ∨ o = some "") : jsOr o dflt = dflt := by
  rcases h with rfl | rfl <;> simp [jsOr]

lemma jsOr_ne_empty (o : Option String) (dflt : String) (h : dflt ≠ "") :
    jsOr o dflt ≠ "" := by
  cases o with
  | none =>
    simp only [jsOr]
    exact h
  | some s =>
    by_cases hs : s = ""
    · simp only [jsOr, hs, if_pos]
      exact h
    · simp only [jsOr, hs, if_neg, if_false]
      exact hs

/-! ## Shape of the handler results -/

lemma tsHandlerWith_shape (key d : String) (o : FetchOutcome) :
    ∃ s, tsHandlerWith key d o = mkText s := by
  unfold tsHandlerWith
  by_cases hk : key = ""
  · rw [if_pos hk]; exact ⟨_, rfl⟩
  · rw [if_neg hk]
    cases o with
    | reject msg => exact ⟨_, rfl⟩
    | httpError status statusText body => exact ⟨_, rfl⟩
    | serviceErrors errs => exact ⟨_, rfl⟩
    | malformed msg => exact ⟨_, rfl⟩
    | ok nodes =>
      cases nodes with
      | none => exact ⟨_, rfl⟩
      | some ts =>
        by_cases hl : ts.length = 0
        · exact ⟨_, if_pos hl⟩
        · exact ⟨_, if_neg hl⟩

lemma buildHandler_shape (env : Option String) (d : String) (o : SdkOutcome) :
    ∃ s, buildHandler env d o = mkText s := by
  cases o with
  | thrown msg arr => exact ⟨_, rfl⟩
  | ok nodes =>
    cases nodes with
    | none => exact ⟨_, rfl⟩
    | some ts =>
      by_cases hl : ts.length = 0
      · exact ⟨_, if_pos hl⟩
      · exact ⟨_, if_neg hl⟩

/-! # Claim theorems -/

/-- C1, counterexample: the claim fails on the SDK handler of
`build/index.js`. With a missing credential (no `LINEAR_API_KEY` in the
environment) that handler still reaches the remote call, and what it returns
is never a text naming the missing-credential condition — at the concrete
outcome of an empty result set it returns the zero-match text. -/
theorem c1_counterexample :
    buildReachesFetch none = true
    ∧ buildHandler none "x" (SdkOutcome.ok (some []))
        = mkText "No Linear tickets found for: \"x\""
    ∧ buildHandler none "x" (SdkOutcome.ok (some []))
        ≠ mkText "LINEAR_API_KEY environment variable is not set." :=
  ⟨rfl, by decide, by decide⟩

/-- C1, amended: the raw-query handler of `src/index.ts` does guard on the
credential before any network call — with an empty credential it would return
the missing-credential text without reaching the fetch — but its credential is
a hardcoded non-empty literal, so that branch never fires as shipped; and the
SDK handler of `build/index.js` performs no credential check at all and always
reaches the remote call. -/
theorem c1_amended :
    LINEAR_API_KEY ≠ ""
    ∧ tsReachesFetch "" = false
    ∧ (∀ d o, tsHandlerWith "" d o
        = mkText "LINEAR_API_KEY environment variable is not set.")
    ∧ (∀ env, buildReachesFetch env = true) := by
  refine ⟨by decide, rfl, ?_, fun _ => rfl⟩
  intro d o
  simp [tsHandlerWith]

/-- C2: for every possible outcome of the remote call — transport rejection,
non-success status, service error array, malformed result container, thrown
exception — each tool handler returns an envelope whose content is exactly one
text block; no failure escapes the handler. -/
theorem c2_never_raises (key d : String) (o : FetchOutcome)
    (env : Option String) (so : SdkOutcome) :
    (∃ s, tsHandlerWith key d o = ResponseEnvelope.mk [ContentBlock.text s])
    ∧ (∃ s, buildHandler env d so
        = ResponseEnvelope.mk [ContentBlock.text s]) := by
  refine ⟨?_, ?_⟩
  · rcases tsHandlerWith_shape key d o with ⟨s, hs⟩
    exact ⟨s, hs⟩
  · rcases buildHandler_shape env d so with ⟨s, hs⟩
    exact ⟨s, hs⟩

/-- C3, counterexample: the claim fails on the raw-query handler of
`src/index.ts`. For the service error array with messages `a` and `b`, the
returned text is the JSON serialization of the error array; it does not
contain the messages joined by a comma (neither as `a, b` nor as `a,b`). -/
theorem c3_counterexample :
    tsHandler "x" (FetchOutcome.serviceErrors [⟨"a"⟩, ⟨"b"⟩])
      = mkText "Linear API GraphQL Error: [\x7b\"message\":\"a\"\x7d,\x7b\"message\":\"b\"\x7d]"
    ∧ ¬ StrContains "a, b"
        "Linear API GraphQL Error: [\x7b\"message\":\"a\"\x7d,\x7b\"message\":\"b\"\x7d]"
    ∧ ¬ StrContains "a,b"
        "Linear API GraphQL Error: [\x7b\"message\":\"a\"\x7d,\x7b\"message\":\"b\"\x7d]" := by
  refine ⟨by decide, ?_, ?_⟩ <;>
    · rw [strContains_iff_occursIn]
      decide

/-- C3, amended: when the remote service reports a structured error array, the
SDK handler of `build/index.js` returns a text that contains all reported
messages joined by a comma and a space, while the raw-query handler of
`src/index.ts` embeds the JSON serialization of the error array instead. -/
theorem c3_amended (env : Option String) (d msg : String)
    (errs : List GqlError) :
    buildHandler env d (SdkOutcome.thrown msg (some errs))
      = mkText ("Failed to fetch issues from Linear: "
          ++ String.intercalate ", " (errs.map GqlError.message))
    ∧ StrContains (String.intercalate ", " (errs.map GqlError.message))
        ("Failed to fetch issues from Linear: "
          ++ String.intercalate ", " (errs.map GqlError.message))
    ∧ tsHandler d (FetchOutcome.serviceErrors errs)
      = mkText ("Linear API GraphQL Error: " ++ stringifyGqlErrors errs) := by
  refine ⟨rfl, strContains_end _ _, ?_⟩
  show tsHandlerWith LINEAR_API_KEY d (FetchOutcome.serviceErrors errs) = _
  unfold tsHandlerWith
  rw [if_neg (by decide : ¬ (LINEAR_API_KEY = ""))]

/-- C4, counterexample: the claim fails — the ellipsis marker is not appended
"if and only if the source description was truncated". The one-character
description `a` is not longer than 200 characters, yet both handlers render it
with the ellipsis marker appended. -/
theorem c4_counterexample :
    tsRenderDescr (some "a") = "a..."
    ∧ buildRenderDescr (some "a") = "a..."
    ∧ ("a" : String).length ≤ 200 :=
  ⟨by decide, by decide, by decide⟩

/-- C4, amended: in every formatted block the rendered description body is the
first at-most-200 characters of the source description, and the ellipsis
marker is appended to every non-empty source description — truncated or not
(absent or empty descriptions render as the fixed `No description` text
instead). -/
theorem c4_amended (s : String) (h : s ≠ "") :
    tsRenderDescr (some s) = jsSubstring s 200 ++ "..."
    ∧ buildRenderDescr (some s) = jsSubstring s 200 ++ "..."
    ∧ (jsSubstring s 200).length ≤ 200 := by
  refine ⟨by simp [tsRenderDescr, h], by simp [buildRenderDescr, h], ?_⟩
  simp only [jsSubstring, String.length]
  rw [List.length_take]
  omega

/-- C4, witness for the amended theorem at the concrete description `a`. -/
theorem c4_witness :
    ("a" : String) ≠ ""
    ∧ (tsRenderDescr (some "a") = jsSubstring "a" 200 ++ "..."
      ∧ buildRenderDescr (some "a") = jsSubstring "a" 200 ++ "..."
      ∧ (jsSubstring "a" 200).length ≤ 200) :=
  ⟨by decide, c4_amended "a" (by decide)⟩

/-- C5: for every non-empty description matching at least one ticket in the
remote data set, the raw-query tool's output is the one-line header naming the
search description and the match count, followed by the
`min(matches, 5)` rendered blocks joined by the separator in service-returned
order; every block contains all seven labels, and absent optional fields
render as the fixed placeholders `N/A` / `Unassigned`, never as the empty
string. -/
theorem c5_success_format (dataset : List Ticket) (d : String)
    (_hd : d ≠ "") (hm : 1 ≤ (dataset.filter (ticketMatches d)).length) :
    tsHandler d (FetchOutcome.ok (some (serviceQuery dataset d)))
      = mkText ("Found " ++ toString (serviceQuery dataset d).length
          ++ " ticket(s) for \"" ++ d ++ "\":\n\n"
          ++ String.intercalate sep
              ((serviceQuery dataset d).map tsRenderTicket))
    ∧ ((serviceQuery dataset d).map tsRenderTicket).length
        = min (dataset.filter (ticketMatches d)).length 5
    ∧ (∀ b ∈ (serviceQuery dataset d).map tsRenderTicket,
        ∀ lab ∈ fieldLabels, StrContains lab b)
    ∧ (∀ t ∈ serviceQuery dataset d,
        ((t.stateName = none ∨ t.stateName = some "") →
          StrContains "Status: N/A\n" (tsRenderTicket t))
        ∧ ((t.assigneeName = none ∨ t.assigneeName = some "") →
          StrContains "Assignee: Unassigned\n" (tsRenderTicket t))
        ∧ ((t.projectName = none ∨ t.projectName = some "") →
          StrContains "Project: N/A\n" (tsRenderTicket t))
        ∧ jsOr t.stateName "N/A" ≠ ""
        ∧ jsOr t.assigneeName "Unassigned" ≠ ""
        ∧ jsOr t.projectName "N/A" ≠ "") := by
  have hq : (serviceQuery dataset d).length
      = min 5 (dataset.filter (ticketMatches d)).length := by
    simp [serviceQuery]
  have hlen : ¬ ((serviceQuery dataset d).length = 0) := by
    rw [hq]; omega
  refine ⟨?_, ?_, ?_, ?_⟩
  · show tsHandlerWith LINEAR_API_KEY d _ = _
    unfold tsHandlerWith
    rw [if_neg (by decide : ¬ (LINEAR_API_KEY = ""))]
    exact if_neg hlen
  · rw [List.length_map, hq, Nat.min_comm]
  · intro b hb
    rcases List.mem_map.mp hb with ⟨t, _ht, rfl⟩
    exact tsRenderTicket_labels t
  · intro t _ht
    refine ⟨?_, ?_, ?_, jsOr_ne_empty _ _ (by decide),
      jsOr_ne_empty _ _ (by decide), jsOr_ne_empty _ _ (by decide)⟩
    · intro habs
      exact tsRenderTicket_status_na t (jsOr_eq_default _ _ habs)
    · intro habs
      exact tsRenderTicket_assignee_unassigned t (jsOr_eq_default _ _ habs)
    · intro habs
      exact tsRenderTicket_project_na t (jsOr_eq_default _ _ habs)

/-- C5, witness at the one-ticket data set `[sampleTicket]` and the
description `x`. -/
theorem c5_witness :
    1 ≤ (([sampleTicket].filter (ticketMatches "x")).length)
    ∧ tsHandler "x" (FetchOutcome.ok (some (serviceQuery [sampleTicket] "x")))
        = mkText ("Found " ++ toString (serviceQuery [sampleTicket] "x").length
            ++ " ticket(s) for \"" ++ "x" ++ "\":\n\n"
            ++ String.intercalate sep
                ((serviceQuery [sampleTicket] "x").map tsRenderTicket)) :=
  ⟨by decide, (c5_success_format [sampleTicket] "x" (by decide) (by decide)).1⟩

/-- C6: for a description matching zero tickets, both tool handlers return the
single text block naming the exact description; if the description itself does
not contain the separator, neither does the returned text; and this zero-match
envelope differs from the envelope of every failure outcome. -/
theorem c6_zero_match (dataset : List Ticket) (d : String)
    (env : Option String) (h : dataset.filter (ticketMatches d) = []) :
    tsHandler d (FetchOutcome.ok (some (serviceQuery dataset d)))
      = mkText (noTicketsText d)
    ∧ buildHandler env d (SdkOutcome.ok (some (serviceQuery dataset d)))
      = mkText (noTicketsText d)
    ∧ (¬ StrContains sep d → ¬ StrContains sep (noTicketsText d))
    ∧ (∀ msg, tsHandler d (FetchOutcome.reject msg)
        ≠ mkText (noTicketsText d))
    ∧ (∀ status statusText body,
        tsHandler d (FetchOutcome.httpError status statusText body)
          ≠ mkText (noTicketsText d))
    ∧ (∀ errs, tsHandler d (FetchOutcome.serviceErrors errs)
        ≠ mkText (noTicketsText d))
    ∧ (∀ msg, tsHandler d (FetchOutcome.malformed msg)
        ≠ mkText (noTicketsText d))
    ∧ (∀ msg arr, buildHandler env d (SdkOutcome.thrown msg arr)
        ≠ mkText (noTicketsText d)) := by
  have hempty : serviceQuery dataset d = [] := by
    simp [serviceQuery, h]
  have hNhead : (noTicketsText d).data.head? = some 'N' :=
    head_append _ _ _ (head_append _ _ _ (by decide))
  refine ⟨?_, ?_, noTickets_sep_free d, ?_, ?_, ?_, ?_, ?_⟩
  · rw [hempty]
    rfl
  · rw [hempty]
    rfl
  · intro msg
    show mkText ("Failed to fetch issues from Linear: " ++ msg) ≠ _
    exact ne_text_of_heads 'F' 'N'
      (head_append _ _ _ (by decide)) hNhead (by decide)
  · intro status statusText body
    show mkText ("Error fetching from Linear API: " ++ toString status ++ " "
      ++ statusText ++ " - " ++ body) ≠ _
    exact ne_text_of_heads 'E' 'N'
      (head_append _ _ _ (head_append _ _ _ (head_append _ _ _
        (head_append _ _ _ (head_append _ _ _ (by decide)))))) hNhead
      (by decide)
  · intro errs
    show mkText ("Linear API GraphQL Error: " ++ stringifyGqlErrors errs) ≠ _
    exact ne_text_of_heads 'L' 'N'
      (head_append _ _ _ (by decide)) hNhead (by decide)
  · intro msg
    show mkText ("Failed to fetch issues from Linear: " ++ msg) ≠ _
    exact ne_text_of_heads 'F' 'N'
      (head_append _ _ _ (by decide)) hNhead (by decide)
  · intro msg arr
    show mkText ("Failed to fetch issues from Linear: " ++ _) ≠ _
    exact ne_text_of_heads 'F' 'N'
      (head_append _ _ _ (by decide)) hNhead (by decide)

/-- C6, witness at the empty data set and the description `x`. -/
theorem c6_witness :
    (([] : List Ticket).filter (ticketMatches "x") = [])
    ∧ tsHandler "x" (FetchOutcome.ok (some (serviceQuery [] "x")))
        = mkText (noTicketsText "x") :=
  ⟨rfl, (c6_zero_match [] "x" none rfl).1⟩

/-- C7, counterexample: the claim fails — for the same failure mode (a service
error array with the single message `a`) the two handlers return different
texts, so they do not produce the same result on every fixed remote data
set and outcome. -/
theorem c7_counterexample :
    tsHandler "x" (FetchOutcome.serviceErrors [⟨"a"⟩])
      ≠ buildHandler none "x" (SdkOutcome.thrown "boom" (some [⟨"a"⟩])) := by
  decide

/-- C7, amended: on every retrieval outcome (a returned node array, present or
absent, matching or empty) the two handlers produce identical envelopes — the
success format and the zero-match text coincide; only the failure texts differ
between the two implementations. -/
theorem c7_amended (env : Option String) (d : String)
    (nodes : Option (List Ticket)) :
    buildHandler env d (SdkOutcome.ok nodes)
      = tsHandler d (FetchOutcome.ok nodes) := by
  have hrd : buildRenderDescr = tsRenderDescr := by
    funext o
    cases o <;> rfl
  have hrt : buildRenderTicket = tsRenderTicket := by
    funext t
    unfold buildRenderTicket tsRenderTicket
    rw [hrd]
  show _ = tsHandlerWith LINEAR_API_KEY d (FetchOutcome.ok nodes)
  unfold tsHandlerWith buildHandler
  rw [if_neg (by decide : ¬ (LINEAR_API_KEY = ""))]
  cases nodes with
  | none => rfl
  | some ts =>
    by_cases hl : ts.length = 0
    · simp [hl]
    · simp [hl, hrt]

/-- C8: the `start-task` prompt dispatch rejects, with `InvalidArgumentsError`
naming `branchType`, every `branchType` value that is not exactly one of the
two literals `feature` and `bugfix`. -/
theorem c8_branch_type_rejected (taskDescription branchType : String)
    (h1 : branchType ≠ "feature") (h2 : branchType ≠ "bugfix") :
    dispatchStartTask taskDescription branchType
      = Except.error (DispatchError.invalidArguments ["branchType"]) := by
  have hmem : branchType ∉ branchTypeOptions := by
    simp [branchTypeOptions, h1, h2]
  simp [dispatchStartTask, hmem]

/-- C8, witness at the rejected value `hotfix`. -/
theorem c8_witness :
    dispatchStartTask "x" "hotfix"
      = Except.error (DispatchError.invalidArguments ["branchType"]) :=
  c8_branch_type_rejected "x" "hotfix" (by decide) (by decide)

/-- C9: each handler's output is a function of the description and the remote
outcome alone — two invocations with equal descriptions against an unchanged
remote outcome yield byte-identical envelopes (the embedding carries no state
between invocations). -/
theorem c9_deterministic (d d' : String) (o o' : FetchOutcome)
    (env env' : Option String) (so so' : SdkOutcome)
    (hd : d = d') (ho : o = o') (henv : env = env') (hso : so = so') :
    tsHandler d o = tsHandler d' o'
    ∧ buildHandler env d so = buildHandler env' d' so' := by
  subst hd
  subst ho
  subst henv
  subst hso
  exact ⟨rfl, rfl⟩

/-- C9, witness: two identical invocations at a concrete input. -/
theorem c9_witness :
    tsHandler "x" (FetchOutcome.ok none) = tsHandler "x" (FetchOutcome.ok none)
    ∧ buildHandler none "x" (SdkOutcome.ok none)
      = buildHandler none "x" (SdkOutcome.ok none) :=
  c9_deterministic "x" "x" (FetchOutcome.ok none) (FetchOutcome.ok none)
    none none (SdkOutcome.ok none) (SdkOutcome.ok none) rfl rfl rfl rfl

/-- C10: a ticket whose description is absent or empty renders its
`Description` line as the literal `No description` in both handlers — the
empty string is treated exactly like an absent description and never as an
empty truncated description with an ellipsis. -/
theorem c10_empty_description (descr : Option String)
    (h : descr = none ∨ descr = some "") :
    tsRenderDescr descr = "No description"
    ∧ buildRenderDescr descr = "No description"
    ∧ (∀ t : Ticket, t.description = descr →
        StrContains "Description: No description" (tsRenderTicket t)
        ∧ StrContains "Description: No description" (buildRenderTicket t)) := by
  have hts : tsRenderDescr descr = "No description" := by
    rcases h with rfl | rfl <;> simp [tsRenderDescr]
  have hbd : buildRenderDescr descr = "No description" := by
    rcases h with rfl | rfl <;> simp [buildRenderDescr]
  refine ⟨hts, hbd, ?_⟩
  intro t ht
  constructor
  · rw [tsRenderTicket_eq, ht, hts,
      (by decide : ("Description: No description" : String)
        = "Description: " ++ "No description")]
    repeat first
      | exact strContains_self _
      | apply strContains_tail
  · rw [buildRenderTicket_eq, ht, hbd,
      (by decide : ("Description: No description" : String)
        = "Description: " ++ "No description")]
    repeat first
      | exact strContains_self _
      | apply strContains_tail

/-- C10, witness at an absent description. -/
theorem c10_witness :
    ((none : Option String) = none ∨ (none : Option String) = some "")
    ∧ (tsRenderDescr none = "No description"
      ∧ buildRenderDescr none = "No description"
      ∧ (∀ t : Ticket, t.description = none →
          StrContains "Description: No description" (tsRenderTicket t)
          ∧ StrContains "Description: No description" (buildRenderTicket t))) :=
  ⟨Or.inl rfl, c10_empty_description none (Or.inl rfl)⟩

end LazyMcp
